import Mathlib

/-!
Verification of the request-batching / deduplication core of the
`channel-loader-rs` repository (crates `deque-loader` and `channel-loader`).

The Rust source is shallowly embedded:
* `LoadState`, `Request`, `Request::resolve` come from
  `deque-loader/src/request.rs`;
* `LoadCache::get_or_create` comes from `deque-loader/src/request.rs`
  (the concurrent `flurry::HashMap` is modelled as an association list and
  the lock-free retry loop by its sequential linearisation: a failed lookup
  is immediately followed by a successful `try_insert`);
* `Task::<PendingAssignment>::get_assignment`, `Task::<LoadBatch>::keys`,
  `Task::<LoadBatch>::resolve` and
  `Task::<LoadBatch>::apply_partial_results` come from
  `deque-loader/src/task.rs`; `rayon::spawn` is modelled by pushing a
  deferred job onto a world's job queue, executed by a separate `runJob`
  step;
* `Arc<V>` is modelled as `V`, `Result<Option<Arc<V>>, E>` as
  `Except E (Option V)`, `HashMap<K, Arc<V>>` as an association list
  queried by `alookup`.
-/

namespace DequeLoader

/-- Association-list lookup, modelling `HashMap::get` / `flurry::HashMap::get`
(first binding wins). -/
def alookup {K V : Type} [DecidableEq K] : List (K × V) → K → Option V
  | [], _ => none
  | (k, v) :: rest, key => if k = key then some v else alookup rest key

/-- Rust `LoadState` from `deque-loader/src/request.rs`:
`Ready(Result<Option<Arc<V>>, E>) | Pending`. -/
inductive LoadState (V E : Type) where
  | Pending : LoadState V E
  | Ready : Except E (Option V) → LoadState V E

/-- The two request flavours of `Request<K, V, E>` in
`deque-loader/src/request.rs`: `Watch` and `Oneshot`. -/
inductive ReqKind where
  | watch : ReqKind
  | oneshot : ReqKind
deriving DecidableEq

/-- The reply channel owned by one request's sender half: `closed` is
tokio's `is_closed` flag (receiver discarded) and `state` the value the
receiver side observes (`Pending` until a send delivers `Ready`). -/
structure Chan (V E : Type) where
  closed : Bool
  state : LoadState V E

/-- A request as the task machinery sees it (`deque-loader/src/task.rs`
works with `Vec<Request<K, V, E>>`): a key, a flavour, and the identity
`cid` of the reply channel it owns inside a `World`. -/
structure Request (K : Type) where
  key : K
  kind : ReqKind
  cid : Nat
deriving DecidableEq

/-- Rust `Request::resolve` from `deque-loader/src/request.rs` lines 106-119,
acting on the request's channel: both arms first test `is_closed` and skip
the send entirely when the receiver is gone; otherwise the send stores the
terminal value (`LoadState::Ready(value)` for watch, the value itself for
oneshot, both modelled as `Ready`), and `.ok()` discards the send result so
no error can escape. -/
def resolveChan {V E : Type} (c : Chan V E) (value : Except E (Option V)) :
    Chan V E :=
  if c.closed then c else { c with state := LoadState.Ready value }

/-- Rust `CompletionReceipt` from `deque-loader/src/task.rs`: a zero-information
proof token. -/
inductive CompletionReceipt where
  | receipt : CompletionReceipt

/-- Rust `TaskAssignment` from `deque-loader/src/task.rs`: either a batch of
requests to load or no assignment (carrying a completion receipt). -/
inductive TaskAssignment (K : Type) where
  | LoadBatch : List (Request K) → TaskAssignment K
  | NoAssignment : TaskAssignment K

/-- Rust `Task::<LoadBatch>::keys` from `deque-loader/src/task.rs` lines
134-138: the `HashSet` built from every request's key, returned as a list;
the hash set is modelled by `List.dedup` (order is irrelevant to every
claim about it). -/
def Task.keys {K : Type} [DecidableEq K] (batch : List (Request K)) :
    List K :=
  (batch.map Request.key).dedup

/-- Modelled from the spec: `RequestBuckets` (referenced by
`deque-loader/src/task.rs` but absent from the available sources) "splits
into ordered buckets of size ≤ max". -/
def chunksOf {α : Type} (m : Nat) : List α → List (List α)
  | [] => []
  | a :: t =>
    match m with
    | 0 => [a :: t]
    | n + 1 => (a :: t).take (n + 1) :: chunksOf (n + 1) (t.drop n)
termination_by l => l.length
decreasing_by simp only [List.length_drop, List.length_cons]; omega

/-- The outcome of one `get_assignment` call: the produced assignment, the
shared queue afterwards, and the request lists of the recursively spawned
tasks (one per remaining bucket). -/
structure GAOut (K : Type) where
  assignment : TaskAssignment K
  queueAfter : List (Request K)
  spawned : List (List (Request K))

/-- Rust `Task::<PendingAssignment>::get_assignment` from
`deque-loader/src/task.rs` lines 72-121, for a handler with
`MAX_BATCH_SIZE = mbs`, local buffer `requests` and shared queue `queue`.
First match: with `Some(max)` and `requests.len() >= max` the local buffer
is returned as a `LoadBatch` without touching the queue; otherwise
`queue_handle.collect_queue(&mut requests)` drains the queue into the
buffer (modelled from the spec: the queue collaborator's atomic
"drain all currently queued items into caller's buffer" operation).
Second match: with `Some(max)` and strictly more than `max` requests, the
requests are bucketed, the first bucket is this task's batch and each
remaining bucket is spawned as a fresh task; an empty buffer yields
`NoAssignment`; otherwise all requests form the batch. -/
def getAssignment {K : Type} (mbs : Option Nat)
    (requests queue : List (Request K)) : GAOut K :=
  match mbs with
  | some m =>
    if requests.length ≥ m then
      ⟨TaskAssignment.LoadBatch requests, queue, []⟩
    else
      let reqs := requests ++ queue
      if reqs.length > m then
        let buckets := chunksOf m reqs
        ⟨TaskAssignment.LoadBatch (buckets.headD []), [], buckets.tail⟩
      else if reqs.length = 0 then
        ⟨TaskAssignment.NoAssignment, [], []⟩
      else
        ⟨TaskAssignment.LoadBatch reqs, [], []⟩
  | none =>
    let reqs := requests ++ queue
    if reqs.length = 0 then
      ⟨TaskAssignment.NoAssignment, [], []⟩
    else
      ⟨TaskAssignment.LoadBatch reqs, [], []⟩

/-- The per-request terminal value computed by `Task::<LoadBatch>::resolve`
(`deque-loader/src/task.rs` lines 144-158): on success the request's key is
looked up in the result map (`values.get(req.key()).cloned()`) and delivered
as `Ok(value)`; on error a clone of the batch error is delivered. -/
def resolveValue {K V E : Type} [DecidableEq K]
    (results : Except E (List (K × V))) (k : K) : Except E (Option V) :=
  match results with
  | Except.ok values => Except.ok (alookup values k)
  | Except.error e => Except.error e

/-- The closure handed to `rayon::spawn` by `Task::<LoadBatch>::resolve`:
the moved-in requests together with the batch result they will be resolved
with once the rayon pool runs the job. -/
structure Job (K V E : Type) where
  requests : List (Request K)
  results : Except E (List (K × V))

/-- The observable state surrounding one batch: the reply channels
(indexed by `Request.cid`) and the queue of spawned-but-not-yet-run rayon
jobs. -/
structure World (K V E : Type) where
  chans : List (Chan V E)
  jobs : List (Job K V E)

/-- One request's `resolve` applied inside a world's channel vector:
`Request::resolve` consumes the request and acts on the channel it owns
(no channel means nothing to deliver to). -/
def applyReq {K V E : Type} (cs : List (Chan V E)) (req : Request K)
    (value : Except E (Option V)) : List (Chan V E) :=
  match cs[req.cid]? with
  | some c => cs.set req.cid (resolveChan c value)
  | none => cs

/-- Sequentialisation of a `par_iter().for_each`/`filter_map` resolution
pass: each request whose value function yields `some v` is resolved with
`v`; a `none` leaves its channel untouched (the request is kept). -/
def foldResolve {K V E : Type}
    (g : Request K → Option (Except E (Option V)))
    (cs : List (Chan V E)) (batch : List (Request K)) : List (Chan V E) :=
  batch.foldl (fun acc req =>
    match g req with
    | some v => applyReq acc req v
    | none => acc) cs

/-- Running the spawned closure of `Task::<LoadBatch>::resolve`
(`deque-loader/src/task.rs` lines 144-159): every request of the job is
resolved with its computed terminal value. -/
def runJobOn {K V E : Type} [DecidableEq K] (cs : List (Chan V E))
    (j : Job K V E) : List (Chan V E) :=
  foldResolve (fun req => some (resolveValue j.results req.key)) cs j.requests

/-- Rust `Task::<LoadBatch>::resolve` from `deque-loader/src/task.rs` lines
141-162: it pushes the fan-out closure onto the rayon pool
(`rayon::spawn(move || ...)`) and immediately returns
`Task::<CompletionReceipt>::completion_receipt()`; the channels are not
touched at this point. -/
def Task.resolve {K V E : Type} [DecidableEq K] (batch : List (Request K))
    (results : Except E (List (K × V))) (w : World K V E) :
    World K V E × CompletionReceipt :=
  (⟨w.chans, w.jobs ++ [⟨batch, results⟩]⟩, CompletionReceipt.receipt)

/-- The rayon pool runs the oldest spawned job. -/
def World.runJob {K V E : Type} [DecidableEq K] (w : World K V E) :
    World K V E :=
  match w.jobs with
  | [] => w
  | j :: rest => ⟨runJobOn w.chans j, rest⟩

/-- The requests not yet disposed of: those sitting in jobs that have been
spawned but not yet executed. -/
def World.undisposed {K V E : Type} (w : World K V E) : List (Request K) :=
  (w.jobs.map Job.requests).flatten

/-- Rust `Task::<LoadBatch>::apply_partial_results` from
`deque-loader/src/task.rs` lines 165-188: every request whose key is in
the partial result map is resolved with `Ok(Some(value))` and dropped from
the batch; the remaining requests form a new `LoadBatch` when any remain,
else `NoAssignment`. The resolution here is synchronous (the parallel
`filter_map` completes before the function returns). -/
def Task.apply_partial_results {K V E : Type} [DecidableEq K]
    (batch : List (Request K)) (results : List (K × V)) (w : World K V E) :
    World K V E × TaskAssignment K :=
  let cs := foldResolve
    (fun req => (alookup results req.key).map (fun v => Except.ok (some v)))
    w.chans batch
  let remaining := batch.filter (fun req => (alookup results req.key).isNone)
  (⟨cs, w.jobs⟩,
    if remaining.length > 0 then TaskAssignment.LoadBatch remaining
    else TaskAssignment.NoAssignment)

/-- Concrete batch with duplicate keys, for witnesses. -/
def demoBatch : List (Request Nat) :=
  [⟨1, ReqKind.watch, 0⟩, ⟨1, ReqKind.oneshot, 1⟩, ⟨2, ReqKind.watch, 2⟩,
   ⟨1, ReqKind.watch, 3⟩, ⟨3, ReqKind.oneshot, 4⟩]

/-- Concrete single watch request owning channel 0, for witnesses. -/
def demoReq : Request Nat := ⟨0, ReqKind.watch, 0⟩

/-- Concrete world: one open, still-pending channel and no queued jobs. -/
def demoWorld : World Nat Nat Nat :=
  ⟨[⟨false, LoadState.Pending⟩], []⟩

/-- Concrete empty success result map, for witnesses. -/
def demoResults : Except Nat (List (Nat × Nat)) := Except.ok []

/-- Concrete two-request batch on distinct keys and channels. -/
def pairBatch : List (Request Nat) :=
  [⟨1, ReqKind.watch, 0⟩, ⟨2, ReqKind.oneshot, 1⟩]

/-- Concrete world with two open pending channels. -/
def pairWorld : World Nat Nat Nat :=
  ⟨[⟨false, LoadState.Pending⟩, ⟨false, LoadState.Pending⟩], []⟩

/-- A request slot: `pending` holds the not-yet-consumed request value
(Rust's move semantics: `resolve(self)` consumes it), `chan` the reply
channel it owns. -/
structure ReqSlot (K V E : Type) where
  pending : Option (K × ReqKind)
  chan : Chan V E

/-- One resolution attempt on a slot: while the request value exists it is
consumed and `Request::resolve` (`deque-loader/src/request.rs` lines
106-119) runs on its channel; once consumed nothing remains to resolve
(Rust's ownership forbids even constructing the second attempt). -/
def ReqSlot.resolveOnce {K V E : Type} (s : ReqSlot K V E)
    (value : Except E (Option V)) : ReqSlot K V E :=
  match s.pending with
  | none => s
  | some _ => { pending := none, chan := resolveChan s.chan value }

/-- Concrete slot whose receiver has been discarded (channel closed). -/
def demoClosedSlot : ReqSlot Nat Nat Nat :=
  ⟨some (0, ReqKind.oneshot), ⟨true, LoadState.Pending⟩⟩

/-- Rust `LoadCache` from `deque-loader/src/request.rs`: the
`flurry::HashMap` from key to the stored watch receiver, modelled as an
association list from key to the receiver's observable cell state. -/
structure LoadCache (K V E : Type) where
  data : List (K × LoadState V E)

/-- Rust `LoadCache::get_or_create` from `deque-loader/src/request.rs`
lines 135-156 (sequential linearisation of the lock-free retry loop: a
failed lookup is immediately followed by a successful `try_insert`): a hit
clones the stored receiver and returns it with no new request; a miss
builds a fresh `WatchRequest` (cell initialised `Pending` by
`Request::new_watch`), inserts its receiver, and returns the receiver
together with the request — `some k` stands for the freshly built
`WatchRequest` for key `k` handed to the winning caller for enqueueing. -/
def LoadCache.get_or_create {K V E : Type} [DecidableEq K]
    (c : LoadCache K V E) (key : K) :
    LoadCache K V E × LoadState V E × Option K :=
  match alookup c.data key with
  | some st => (c, st, none)
  | none =>
    (⟨(key, LoadState.Pending) :: c.data⟩, LoadState.Pending, some key)

/-- A sequence of `get_or_create` calls threaded through the cache,
recording each call's optional fresh request. -/
def LoadCache.runCalls {K V E : Type} [DecidableEq K]
    (c : LoadCache K V E) : List K → LoadCache K V E × List (Option K)
  | [] => (c, [])
  | k :: rest =>
    let r := c.get_or_create k
    let rr := LoadCache.runCalls r.1 rest
    (rr.1, r.2.2 :: rr.2)

/-- How many calls of a sequence produced a fresh request for key `k`. -/
def freshCount {K : Type} [DecidableEq K] (outs : List (Option K))
    (k : K) : Nat :=
  (outs.filter (fun o => decide (o = some k))).length

/-- Concrete cache whose sole entry has already resolved to an error. -/
def demoCacheErr : LoadCache Nat Nat Nat :=
  ⟨[(0, LoadState.Ready (Except.error 5))]⟩

lemma applyReq_length {K V E : Type} (cs : List (Chan V E))
    (req : Request K) (value : Except E (Option V)) :
    (applyReq cs req value).length = cs.length := by
  unfold applyReq
  cases h : cs[req.cid]? <;> simp

lemma applyReq_getElem_ne {K V E : Type} (cs : List (Chan V E))
    (req : Request K) (value : Except E (Option V)) (i : Nat)
    (hne : req.cid ≠ i) :
    (applyReq cs req value)[i]? = cs[i]? := by
  unfold applyReq
  cases h : cs[req.cid]? with
  | none => rfl
  | some c => simp [List.getElem?_set_ne hne]

lemma applyReq_getElem_self {K V E : Type} (cs : List (Chan V E))
    (req : Request K) (value : Except E (Option V)) (c : Chan V E)
    (hc : cs[req.cid]? = some c) :
    (applyReq cs req value)[req.cid]? = some (resolveChan c value) := by
  have hlt : req.cid < cs.length := by
    by_contra hge
    rw [List.getElem?_eq_none (Nat.le_of_not_lt hge)] at hc
    exact Option.noConfusion hc
  unfold applyReq
  rw [hc]
  exact List.getElem?_set_eq_of_lt _ hlt

lemma foldResolve_length {K V E : Type}
    (g : Request K → Option (Except E (Option V)))
    (batch : List (Request K)) (cs : List (Chan V E)) :
    (foldResolve g cs batch).length = cs.length := by
  induction batch generalizing cs with
  | nil => rfl
  | cons a t ih =>
    simp only [foldResolve, List.foldl_cons]
    cases hg : g a with
    | none => exact ih cs
    | some v => exact (ih (applyReq cs a v)).trans (applyReq_length cs a v)

lemma foldResolve_getElem_notMem {K V E : Type}
    (g : Request K → Option (Except E (Option V)))
    (batch : List (Request K)) (cs : List (Chan V E)) (i : Nat)
    (hi : i ∉ batch.map Request.cid) :
    (foldResolve g cs batch)[i]? = cs[i]? := by
  induction batch generalizing cs with
  | nil => rfl
  | cons a t ih =>
    simp only [List.map_cons, List.mem_cons, not_or] at hi
    simp only [foldResolve, List.foldl_cons]
    cases hg : g a with
    | none => exact ih cs hi.2
    | some v =>
      exact (ih (applyReq cs a v) hi.2).trans
        (applyReq_getElem_ne cs a v i (fun h => hi.1 h.symm))

lemma foldResolve_getElem_mem {K V E : Type}
    (g : Request K → Option (Except E (Option V)))
    (batch : List (Request K)) (cs : List (Chan V E)) (req : Request K)
    (hreq : req ∈ batch) (hnd : (batch.map Request.cid).Nodup)
    (c : Chan V E) (hc : cs[req.cid]? = some c) :
    (foldResolve g cs batch)[req.cid]? =
      some (Option.elim (g req) c (resolveChan c)) := by
  induction batch generalizing cs with
  | nil => exact absurd hreq (List.not_mem_nil req)
  | cons a t ih =>
    simp only [List.map_cons, List.nodup_cons] at hnd
    rcases List.mem_cons.mp hreq with rfl | hmem
    · simp only [foldResolve, List.foldl_cons]
      cases hg : g req with
      | none =>
        exact (foldResolve_getElem_notMem g t cs req.cid hnd.1).trans hc
      | some v =>
        exact (foldResolve_getElem_notMem g t (applyReq cs req v) req.cid
          hnd.1).trans (applyReq_getElem_self cs req v c hc)
    · have hne : a.cid ≠ req.cid := by
        intro h
        exact hnd.1 (h ▸ List.mem_map_of_mem Request.cid hmem)
      simp only [foldResolve, List.foldl_cons]
      cases hg : g a with
      | none => exact ih cs hmem hnd.2 hc
      | some v =>
        exact ih (applyReq cs a v) hmem hnd.2
          ((applyReq_getElem_ne cs a v req.cid hne).trans hc)

end DequeLoader

namespace DequeLoader

/-- C7: `keys()` returns exactly the set of distinct keys of the batch's
requests: every request's key appears, the result has no duplicates, and
every returned key is some request's key. -/
theorem keys_distinct_complete {K : Type} [DecidableEq K]
    (batch : List (Request K)) :
    (∀ req ∈ batch, req.key ∈ Task.keys batch) ∧
    (Task.keys batch).Nodup ∧
    (∀ k ∈ Task.keys batch, ∃ req ∈ batch, req.key = k) := by
  refine ⟨?_, ?_, ?_⟩
  · intro req hreq
    simp only [Task.keys, List.mem_dedup]
    exact List.mem_map_of_mem Request.key hreq
  · exact List.nodup_dedup _
  · intro k hk
    simp only [Task.keys, List.mem_dedup, List.mem_map] at hk
    exact hk

theorem keys_distinct_complete_witness :
    (⟨1, ReqKind.watch, 0⟩ : Request Nat).key ∈ Task.keys demoBatch ∧
    (Task.keys demoBatch).Nodup ∧
    (∃ req ∈ demoBatch, req.key = 3) := by
  obtain ⟨h1, h2, h3⟩ := keys_distinct_complete demoBatch
  exact ⟨h1 ⟨1, ReqKind.watch, 0⟩ (by simp [demoBatch]), h2,
    h3 3 (by decide)⟩

/-- C9: for a handler whose `MAX_BATCH_SIZE` is `None` or a positive
`Some(n)`, `get_assignment` with an empty local buffer and an empty shared
queue returns `NoAssignment` (leaving the queue empty and spawning
nothing). -/
theorem get_assignment_empty_no_work {K : Type} (mbs : Option Nat)
    (h : mbs = none ∨ ∃ n, mbs = some n ∧ 0 < n) :
    getAssignment mbs ([] : List (Request K)) [] =
      ⟨TaskAssignment.NoAssignment, [], []⟩ := by
  rcases h with h | ⟨n, rfl, hn⟩
  · subst h; simp [getAssignment]
  · simp [getAssignment, Nat.not_le.mpr hn]

theorem get_assignment_empty_no_work_witness :
    getAssignment (some 1) ([] : List (Request Nat)) [] =
      ⟨TaskAssignment.NoAssignment, [], []⟩ :=
  get_assignment_empty_no_work (some 1) (Or.inr ⟨1, rfl, by decide⟩)

/-- C10: with `MAX_BATCH_SIZE = Some(0)`, `get_assignment` on an empty
local buffer short-circuits in the first match arm (`0 >= 0`): it returns
a `LoadBatch` holding zero requests, leaves the shared queue untouched and
spawns nothing — never `NoAssignment`, whatever the queue holds. -/
theorem get_assignment_zero_max_batch {K : Type}
    (queue : List (Request K)) :
    getAssignment (some 0) [] queue =
      ⟨TaskAssignment.LoadBatch [], queue, []⟩ := by
  simp [getAssignment]

end DequeLoader

namespace DequeLoader

lemma resolve_runJob_chan {K V E : Type} [DecidableEq K]
    (batch : List (Request K)) (results : Except E (List (K × V)))
    (w : World K V E) (hw : w.jobs = []) (req : Request K)
    (hreq : req ∈ batch) (hnd : (batch.map Request.cid).Nodup)
    (st : LoadState V E) (hc : w.chans[req.cid]? = some ⟨false, st⟩) :
    (((Task.resolve batch results w).1).runJob).chans[req.cid]? =
      some ⟨false, LoadState.Ready (resolveValue results req.key)⟩ := by
  have hrun : ((Task.resolve batch results w).1).runJob =
      ⟨runJobOn w.chans ⟨batch, results⟩, []⟩ := by
    simp [Task.resolve, World.runJob, hw]
  rw [hrun]
  have h := foldResolve_getElem_mem
    (fun r => some (resolveValue results r.key)) batch w.chans req hreq hnd
    ⟨false, st⟩ hc
  simpa [runJobOn, resolveChan] using h

lemma foldResolve_getElem_unchanged {K V E : Type}
    (g : Request K → Option (Except E (Option V)))
    (batch : List (Request K)) (cs : List (Chan V E)) (req : Request K)
    (hreq : req ∈ batch) (hnd : (batch.map Request.cid).Nodup)
    (hg : g req = none) :
    (foldResolve g cs batch)[req.cid]? = cs[req.cid]? := by
  cases hc : cs[req.cid]? with
  | some c =>
    rw [foldResolve_getElem_mem g batch cs req hreq hnd c hc, hg]
    rfl
  | none =>
    have h1 : cs.length ≤ req.cid := by
      by_contra hlt
      rw [List.getElem?_eq_getElem (Nat.lt_of_not_le hlt)] at hc
      exact Option.noConfusion hc
    rw [List.getElem?_eq_none]
    rw [foldResolve_length]
    exact h1

/-- C2: the claim fails on the code at a concrete input:
`Task::<LoadBatch>::resolve` only spawns the fan-out onto the rayon pool
and returns its `CompletionReceipt` immediately, so right after it returns
the batch's sole request is still undisposed (its channel still `Pending`,
the job still queued). -/
theorem resolve_receipt_before_disposal_counterexample :
    (Task.resolve [demoReq] demoResults demoWorld).2 =
      CompletionReceipt.receipt ∧
    demoReq ∈ ((Task.resolve [demoReq] demoResults demoWorld).1).undisposed ∧
    ((Task.resolve [demoReq] demoResults demoWorld).1).chans =
      [⟨false, LoadState.Pending⟩] := by
  refine ⟨rfl, ?_, rfl⟩
  simp [Task.resolve, World.undisposed, demoWorld]

/-- C2 (amended): `Task::<LoadBatch>::resolve` spawns the whole fan-out as
one rayon job and returns the `CompletionReceipt` immediately, while every
request of the batch is still undisposed; the requests are disposed when
the rayon pool runs that job: afterwards no request remains undisposed and
each request (open channel, unaliased cid) holds `Ready` with its computed
terminal value. -/
theorem resolve_schedules_job_then_disposal {K V E : Type} [DecidableEq K]
    (batch : List (Request K)) (results : Except E (List (K × V)))
    (w : World K V E) (hw : w.jobs = []) (req : Request K)
    (hreq : req ∈ batch) (hnd : (batch.map Request.cid).Nodup)
    (st : LoadState V E) (hc : w.chans[req.cid]? = some ⟨false, st⟩) :
    (((Task.resolve batch results w).1).undisposed = batch) ∧
    ((((Task.resolve batch results w).1).runJob).undisposed = []) ∧
    ((((Task.resolve batch results w).1).runJob).chans[req.cid]? =
      some ⟨false, LoadState.Ready (resolveValue results req.key)⟩) := by
  refine ⟨?_, ?_, ?_⟩
  · simp [Task.resolve, World.undisposed, hw]
  · simp [Task.resolve, World.runJob, World.undisposed, hw]
  · exact resolve_runJob_chan batch results w hw req hreq hnd st hc

theorem resolve_schedules_job_then_disposal_witness :
    (((Task.resolve [demoReq] demoResults demoWorld).1).undisposed =
      [demoReq]) ∧
    ((((Task.resolve [demoReq] demoResults demoWorld).1).runJob).chans[0]? =
      some ⟨false, LoadState.Ready (Except.ok none)⟩) := by
  have h := resolve_schedules_job_then_disposal [demoReq] demoResults
    demoWorld rfl demoReq (by simp) (by simp [demoReq]) LoadState.Pending rfl
  exact ⟨h.1, h.2.2⟩

/-- C4: resolving a batch with a success map `m` delivers, to every request
of the batch (open channel, unaliased cid), `Ok(Some(m[key]))` when its key
is present in `m` and `Ok(None)` when its key is absent — observed on the
request's channel once the spawned fan-out job has run. -/
theorem resolve_success_fanout {K V E : Type} [DecidableEq K]
    (batch : List (Request K)) (m : List (K × V)) (w : World K V E)
    (hw : w.jobs = []) (req : Request K) (hreq : req ∈ batch)
    (hnd : (batch.map Request.cid).Nodup) (st : LoadState V E)
    (hc : w.chans[req.cid]? = some ⟨false, st⟩) :
    (∀ v, alookup m req.key = some v →
      (((Task.resolve batch (Except.ok m) w).1).runJob).chans[req.cid]? =
        some ⟨false, LoadState.Ready (Except.ok (some v))⟩) ∧
    (alookup m req.key = none →
      (((Task.resolve batch (Except.ok m) w).1).runJob).chans[req.cid]? =
        some ⟨false, LoadState.Ready (Except.ok none)⟩) := by
  have key := resolve_runJob_chan batch (Except.ok m) w hw req hreq hnd st hc
  constructor
  · intro v hv
    rw [key]
    simp [resolveValue, hv]
  · intro hv
    rw [key]
    simp [resolveValue, hv]

theorem resolve_success_fanout_witness :
    ((((Task.resolve pairBatch (Except.ok [(1, 9)]) pairWorld).1).runJob).chans[0]? =
      some ⟨false, LoadState.Ready (Except.ok (some 9))⟩) ∧
    ((((Task.resolve pairBatch (Except.ok [(1, 9)]) pairWorld).1).runJob).chans[1]? =
      some ⟨false, LoadState.Ready (Except.ok none)⟩) := by
  have h1 := resolve_success_fanout pairBatch [(1, 9)] pairWorld rfl
    ⟨1, ReqKind.watch, 0⟩ (by simp [pairBatch]) (by simp [pairBatch])
    LoadState.Pending rfl
  have h2 := resolve_success_fanout pairBatch [(1, 9)] pairWorld rfl
    ⟨2, ReqKind.oneshot, 1⟩ (by simp [pairBatch]) (by simp [pairBatch])
    LoadState.Pending rfl
  exact ⟨h1.1 9 rfl, h2.2 rfl⟩

/-- C5: resolving a batch with an error `e` delivers a clone of the same
error to every request of the batch (open channel, unaliased cid),
whatever its key — observed on the request's channel once the spawned
fan-out job has run. -/
theorem resolve_error_broadcast {K V E : Type} [DecidableEq K]
    (batch : List (Request K)) (e : E) (w : World K V E)
    (hw : w.jobs = []) (req : Request K) (hreq : req ∈ batch)
    (hnd : (batch.map Request.cid).Nodup) (st : LoadState V E)
    (hc : w.chans[req.cid]? = some ⟨false, st⟩) :
    (((Task.resolve batch (Except.error e) w).1).runJob).chans[req.cid]? =
      some ⟨false, LoadState.Ready (Except.error e)⟩ :=
  resolve_runJob_chan batch (Except.error e) w hw req hreq hnd st hc

theorem resolve_error_broadcast_witness :
    (((Task.resolve pairBatch (Except.error 7) pairWorld).1).runJob).chans[1]? =
      some ⟨false, LoadState.Ready (Except.error 7)⟩ :=
  resolve_error_broadcast pairBatch 7 pairWorld rfl ⟨2, ReqKind.oneshot, 1⟩
    (by simp [pairBatch]) (by simp [pairBatch]) LoadState.Pending rfl

end DequeLoader

namespace DequeLoader

/-- C6: `apply_partial_results(p)` resolves exactly the requests whose key
is in `p` — each (open channel, unaliased cid) receives
`Ok(Some(p[key]))`, channels of key-absent requests are untouched — and
returns a `LoadBatch` built from exactly the key-absent requests when at
least one remains, else `NoAssignment`. -/
theorem apply_partial_results_spec {K V E : Type} [DecidableEq K]
    (batch : List (Request K)) (p : List (K × V)) (w : World K V E)
    (hnd : (batch.map Request.cid).Nodup) :
    (∀ req ∈ batch, ∀ st : LoadState V E,
      w.chans[req.cid]? = some ⟨false, st⟩ →
      ∀ v, alookup p req.key = some v →
      ((Task.apply_partial_results batch p w).1).chans[req.cid]? =
        some ⟨false, LoadState.Ready (Except.ok (some v))⟩) ∧
    (∀ req ∈ batch, alookup p req.key = none →
      ((Task.apply_partial_results batch p w).1).chans[req.cid]? =
        w.chans[req.cid]?) ∧
    (∀ r : Request K,
      r ∈ batch.filter (fun q => (alookup p q.key).isNone) ↔
        (r ∈ batch ∧ alookup p r.key = none)) ∧
    ((∃ req ∈ batch, alookup p req.key = none) →
      (Task.apply_partial_results batch p w).2 =
        TaskAssignment.LoadBatch
          (batch.filter (fun q => (alookup p q.key).isNone))) ∧
    ((∀ req ∈ batch, (alookup p req.key).isSome) →
      (Task.apply_partial_results batch p w).2 =
        TaskAssignment.NoAssignment) := by
  have hchans : ((Task.apply_partial_results batch p w).1).chans =
      foldResolve
        (fun q => (alookup p q.key).map (fun v => Except.ok (some v)))
        w.chans batch := rfl
  have hsnd : (Task.apply_partial_results batch p w).2 =
      (if (batch.filter (fun q => (alookup p q.key).isNone)).length > 0 then
        TaskAssignment.LoadBatch
          (batch.filter (fun q => (alookup p q.key).isNone))
      else TaskAssignment.NoAssignment) := rfl
  refine ⟨?_, ?_, ?_, ?_, ?_⟩
  · intro req hreq st hst v hv
    rw [hchans]
    rw [foldResolve_getElem_mem _ batch w.chans req hreq hnd ⟨false, st⟩ hst]
    simp [hv, resolveChan]
  · intro req hreq hv
    rw [hchans]
    exact foldResolve_getElem_unchanged _ batch w.chans req hreq hnd
      (by rw [hv]; rfl)
  · intro r
    simp [List.mem_filter, Option.isNone_iff_eq_none]
  · rintro ⟨req, hreq, habs⟩
    have hmem : req ∈ batch.filter (fun q => (alookup p q.key).isNone) :=
      List.mem_filter.mpr ⟨hreq, by simp [habs]⟩
    have hpos :
        0 < (batch.filter (fun q => (alookup p q.key).isNone)).length :=
      List.length_pos.mpr (List.ne_nil_of_mem hmem)
    rw [hsnd, if_pos hpos]
  · intro hall
    have hnil : batch.filter (fun q => (alookup p q.key).isNone) = [] := by
      rw [List.filter_eq_nil_iff]
      intro q hq
      have := hall q hq
      simp [Option.isNone_iff_eq_none] at this ⊢
      exact Option.ne_none_iff_isSome.mpr this
    rw [hsnd, hnil]
    rfl

theorem apply_partial_results_spec_witness :
    (((Task.apply_partial_results pairBatch [(1, 9)] pairWorld).1).chans[0]? =
      some ⟨false, LoadState.Ready (Except.ok (some 9))⟩) ∧
    (((Task.apply_partial_results pairBatch [(1, 9)] pairWorld).1).chans[1]? =
      pairWorld.chans[1]?) ∧
    ((Task.apply_partial_results pairBatch [(1, 9)] pairWorld).2 =
      TaskAssignment.LoadBatch [⟨2, ReqKind.oneshot, 1⟩]) := by
  have h := apply_partial_results_spec pairBatch [(1, 9)] pairWorld
    (by simp [pairBatch])
  refine ⟨h.1 ⟨1, ReqKind.watch, 0⟩ (by simp [pairBatch]) LoadState.Pending
      rfl 9 rfl,
    h.2.1 ⟨2, ReqKind.oneshot, 1⟩ (by simp [pairBatch]) rfl, ?_⟩
  have h4 := h.2.2.2.1 ⟨⟨2, ReqKind.oneshot, 1⟩, by simp [pairBatch], rfl⟩
  rw [h4]
  rfl

/-- C8: a request's `resolve` takes effect at most once — it consumes the
request, so a second resolution attempt changes nothing — and resolving a
request whose receiver has been discarded (channel closed) is a silent
no-op: the channel is untouched and no error or panic is produced (the
embedding is total and error-free, mirroring the `is_closed` guard and
`.ok()` discarding the send result). -/
theorem resolve_at_most_once_and_closed_noop {K V E : Type}
    (s : ReqSlot K V E) (v w : Except E (Option V)) :
    ((s.resolveOnce v).resolveOnce w = s.resolveOnce v) ∧
    (s.chan.closed = true → (s.resolveOnce v).chan = s.chan) := by
  constructor
  · cases hp : s.pending <;> simp [ReqSlot.resolveOnce, hp]
  · intro hcl
    cases hp : s.pending <;>
      simp [ReqSlot.resolveOnce, hp, resolveChan, hcl]

theorem resolve_at_most_once_and_closed_noop_witness :
    ((demoClosedSlot.resolveOnce (Except.ok none)).resolveOnce
        (Except.ok none) = demoClosedSlot.resolveOnce (Except.ok none)) ∧
    ((demoClosedSlot.resolveOnce (Except.ok none)).chan =
      demoClosedSlot.chan) :=
  ⟨(resolve_at_most_once_and_closed_noop demoClosedSlot (Except.ok none)
      (Except.ok none)).1,
   (resolve_at_most_once_and_closed_noop demoClosedSlot (Except.ok none)
      (Except.ok none)).2 rfl⟩

end DequeLoader

namespace DequeLoader

lemma freshCount_cons_none {K : Type} [DecidableEq K]
    (outs : List (Option K)) (k : K) :
    freshCount (none :: outs) k = freshCount outs k := by
  simp [freshCount]

lemma freshCount_cons_some_self {K : Type} [DecidableEq K]
    (outs : List (Option K)) (k : K) :
    freshCount (some k :: outs) k = freshCount outs k + 1 := by
  simp [freshCount]

lemma freshCount_cons_some_ne {K : Type} [DecidableEq K]
    (outs : List (Option K)) (k1 k : K) (h : k1 ≠ k) :
    freshCount (some k1 :: outs) k = freshCount outs k := by
  simp [freshCount, h]

lemma runCalls_cons {K V E : Type} [DecidableEq K] (c : LoadCache K V E)
    (k1 : K) (rest : List K) :
    c.runCalls (k1 :: rest) =
      (((c.get_or_create k1).1.runCalls rest).1,
        (c.get_or_create k1).2.2 ::
          ((c.get_or_create k1).1.runCalls rest).2) := rfl

lemma runCalls_freshCount_of_present {K V E : Type} [DecidableEq K]
    (ks : List K) (c : LoadCache K V E) (k : K)
    (hp : (alookup c.data k).isSome) :
    freshCount ((c.runCalls ks).2) k = 0 := by
  induction ks generalizing c with
  | nil => rfl
  | cons k1 rest ih =>
    rw [runCalls_cons]
    cases h : alookup c.data k1 with
    | some st =>
      have hg : c.get_or_create k1 = (c, st, none) := by
        simp [LoadCache.get_or_create, h]
      rw [hg, freshCount_cons_none]
      exact ih c hp
    | none =>
      have hne : k1 ≠ k := by
        intro he
        rw [he] at h
        rw [h] at hp
        simp at hp
      have hg : c.get_or_create k1 =
          (⟨(k1, LoadState.Pending) :: c.data⟩, LoadState.Pending,
            some k1) := by
        simp [LoadCache.get_or_create, h]
      rw [hg, freshCount_cons_some_ne _ _ _ hne]
      refine ih _ ?_
      simpa [alookup, hne] using hp

lemma runCalls_freshCount_le_one {K V E : Type} [DecidableEq K]
    (ks : List K) (c : LoadCache K V E) (k : K) :
    freshCount ((c.runCalls ks).2) k ≤ 1 := by
  induction ks generalizing c with
  | nil => exact Nat.zero_le 1
  | cons k1 rest ih =>
    rw [runCalls_cons]
    cases h : alookup c.data k1 with
    | some st =>
      have hg : c.get_or_create k1 = (c, st, none) := by
        simp [LoadCache.get_or_create, h]
      rw [hg, freshCount_cons_none]
      exact ih c
    | none =>
      have hg : c.get_or_create k1 =
          (⟨(k1, LoadState.Pending) :: c.data⟩, LoadState.Pending,
            some k1) := by
        simp [LoadCache.get_or_create, h]
      rw [hg]
      by_cases he : k1 = k
      · subst he
        rw [freshCount_cons_some_self]
        rw [runCalls_freshCount_of_present rest _ k1 (by simp [alookup])]
      · rw [freshCount_cons_some_ne _ _ _ he]
        exact ih _

/-- C3: `get_or_create(k)` joins when an entry for `k` is present — it
returns the stored receiver with no new request, leaving the cache
unchanged — and returns a freshly built pending `WatchRequest` exactly
when its insert-if-absent succeeds (key previously absent); across any
sequence of calls with no intervening removal, at most one call produces a
request for a given key. -/
theorem get_or_create_single_flight {K V E : Type} [DecidableEq K]
    (c : LoadCache K V E) (k : K) :
    (∀ st, alookup c.data k = some st →
      c.get_or_create k = (c, st, none)) ∧
    (alookup c.data k = none →
      c.get_or_create k =
        (⟨(k, LoadState.Pending) :: c.data⟩, LoadState.Pending, some k)) ∧
    (∀ ks : List K, freshCount ((c.runCalls ks).2) k ≤ 1) := by
  refine ⟨?_, ?_, fun ks => runCalls_freshCount_le_one ks c k⟩
  · intro st h
    simp [LoadCache.get_or_create, h]
  · intro h
    simp [LoadCache.get_or_create, h]

theorem get_or_create_single_flight_witness :
    (demoCacheErr.get_or_create 0 =
      (demoCacheErr, LoadState.Ready (Except.error 5), none)) ∧
    ((⟨[]⟩ : LoadCache Nat Nat Nat).get_or_create 0 =
      (⟨[(0, LoadState.Pending)]⟩, LoadState.Pending, some 0)) ∧
    freshCount (((⟨[]⟩ : LoadCache Nat Nat Nat).runCalls [0, 0, 0]).2) 0 ≤
      1 :=
  ⟨(get_or_create_single_flight demoCacheErr 0).1 _ rfl,
   (get_or_create_single_flight (⟨[]⟩ : LoadCache Nat Nat Nat) 0).2.1 rfl,
   (get_or_create_single_flight (⟨[]⟩ : LoadCache Nat Nat Nat) 0).2.2
     [0, 0, 0]⟩

/-- C1: the claim fails on the code at a concrete input: with the cached
watch cell for key `0` already at `Ready(Err(5))`, `get_or_create(0)`
returns the stored receiver — handing the caller the previously stored
error — and `none` in place of a fresh request, leaving the cache
unchanged: no fresh load is started. -/
theorem get_or_create_errored_key_counterexample :
    (demoCacheErr.get_or_create 0).2.2 = none ∧
    (demoCacheErr.get_or_create 0).2.1 =
      LoadState.Ready (Except.error 5) ∧
    (demoCacheErr.get_or_create 0).1 = demoCacheErr :=
  ⟨rfl, rfl, rfl⟩

/-- C1 (amended): while the errored entry persists in the map (the cache
never removes entries), `get_or_create(k)` on a key whose cached cell has
reached `Ready(Err(e))` merely hands the caller the stored error and
starts no fresh load; a fresh load starts only when no entry for `k` is
present (which requires external removal). -/
theorem get_or_create_errored_key_joins_cached {K V E : Type}
    [DecidableEq K] (c : LoadCache K V E) (k : K) (e : E)
    (h : alookup c.data k = some (LoadState.Ready (Except.error e))) :
    c.get_or_create k =
      (c, LoadState.Ready (Except.error e), none) ∧
    (∀ c2 : LoadCache K V E, alookup c2.data k = none →
      (c2.get_or_create k).2.2 = some k) := by
  constructor
  · simp [LoadCache.get_or_create, h]
  · intro c2 h2
    simp [LoadCache.get_or_create, h2]

theorem get_or_create_errored_key_joins_cached_witness :
    (demoCacheErr.get_or_create 0 =
      (demoCacheErr, LoadState.Ready (Except.error 5), none)) ∧
    ((⟨[]⟩ : LoadCache Nat Nat Nat).get_or_create 0).2.2 = some 0 := by
  have h := get_or_create_errored_key_joins_cached demoCacheErr 0 5 rfl
  exact ⟨h.1, h.2 ⟨[]⟩ rfl⟩

end DequeLoader
